import Mathlib

/-!
Verification of the teststation device-registry, leasing, transfer and
execution-pipeline subsystem, shallowly embedded from the Python sources
(`grpc_server.py`, `grpc_client.py`, `app_executor.py`,
`utils/device.py`, `utils/device_context.py`).

State is modelled by explicit passing: the per-host registry
(`VTestStation.devices`, an insertion-ordered dict) becomes an ordered
list of `Device` records, and every external effect (adb subprocess
outcome, gRPC response) becomes an explicit input of the embedded
function.
-/

namespace Teststation

/-! ## Device registry and leasing (`grpc_server.py`) -/

/-- A registry record, embedding the fields of `utils/device.py`'s
`Device` dataclass that the registry and pipeline operations touch
(`id`, the `state` entry of the property dict, `in_use`,
`last_installed_app`). -/
structure Device where
  id : String
  state : String
  in_use : Bool := false
  last_installed_app : Option String := none
deriving DecidableEq

/-- `VTestStation.add_device`: insert the record only when no record
with the same id is present; an existing record is never overwritten. -/
def addDevice (registry : List Device) (d : Device) : List Device :=
  if registry.any (fun e => e.id = d.id) then registry else registry ++ [d]

/-- A fresh record as built in `getAdbDevices`
(`Device(id=id, properties=properties, ...)`): not in use, nothing
installed. -/
def mkDevice (id state : String) : Device :=
  { id := id, state := state }

/-- `utils/device.py` `VALID_DEVICE_STATES`. -/
def VALID_DEVICE_STATES : List String := ["device", "unauthorized"]

/-- Insertion-ordered dict write `devices[k] = v` used by
`get_all_devices`: overwrite in place when the key exists, else append. -/
def dictUpsert (m : List (String × String)) (k v : String) : List (String × String) :=
  if m.any (fun p => p.1 = k) then m.map (fun p => if p.1 = k then (p.1, v) else p)
  else m ++ [(k, v)]

/-- `utils/device.py` `get_all_devices`, restricted to the id/state
parsing of the `adb devices` output (the property fetch fills unrelated
fields).  Each line is stripped and split on a tab; lines that do not
split in exactly two fields, or whose state is not in
`VALID_DEVICE_STATES`, are skipped. -/
def get_all_devices (out : String) : List (String × String) :=
  (out.splitOn "\n").foldl
    (fun devs line =>
      match line.trim.splitOn "\t" with
      | [did, st] =>
        if VALID_DEVICE_STATES.contains st then dictUpsert devs did st else devs
      | _ => devs)
    []

/-- The per-device step of `VTestFunctions.getAdbDevices`'s first loop:
skip any enumerated device whose state is not `"device"`, otherwise
`add_device` a fresh record. -/
def adbAddStep (reg : List Device) (p : String × String) : List Device :=
  if p.2 = "device" then addDevice reg (mkDevice p.1 p.2) else reg

/-- `VTestFunctions.getAdbDevices` acting on the registry, with the
enumeration result (`get_all_devices()`) passed explicitly: first add a
fresh record for every enumerated device in state `"device"` (existing
records are kept as they are), then delete every registry record whose
id is absent from the enumeration. -/
def getAdbDevices (enumr : List (String × String)) (registry : List Device) : List Device :=
  let reg1 := enumr.foldl adbAddStep registry
  reg1.filter (fun d => enumr.any (fun p => p.1 = d.id))

/-- `getAdbDevices` composed with the enumeration-output parsing. -/
def getAdbDevicesRaw (out : String) (registry : List Device) : List Device :=
  getAdbDevices (get_all_devices out) registry

/-- `DeviceIdResponse` of `grpc_server.py`. -/
structure DeviceIdResponse where
  result : List String := []
  error : String := ""
deriving DecidableEq

/-- `device.in_use = True` as done by the local `add_device` helper of
`getFreeDevices`. -/
def markUsed (d : Device) : Device := { d with in_use := true }

/-- The scan loop of `VTestFunctions.getFreeDevices` over the registry
in iteration order.  `k` is the number of devices collected so far
(`len(ret_devices)`).  Devices already in use are skipped; with an
empty wish list the loop breaks as soon as `k` equals the requested
count and otherwise collects the device; with a non-empty wish list a
free device is collected exactly when its id is in the wish list.
Returns the updated registry and the collected ids in order. -/
def gfdScan (num : Nat) (wish : List String) : Nat → List Device → List Device × List String
  | _, [] => ([], [])
  | k, d :: rest =>
    if d.in_use then
      let s := gfdScan num wish k rest
      (d :: s.1, s.2)
    else if wish.length = 0 then
      if k = num then (d :: rest, [])
      else
        let s := gfdScan num wish (k + 1) rest
        (markUsed d :: s.1, d.id :: s.2)
    else if wish.contains d.id then
      let s := gfdScan num wish k rest
      (markUsed d :: s.1, d.id :: s.2)
    else
      let s := gfdScan num wish k rest
      (d :: s.1, s.2)

/-- The registry actually scanned by `getFreeDevices`: when the registry
is empty, `getAdbDevices()` is triggered first (lazy discovery). -/
def scanReg (enumr : List (String × String)) (registry : List Device) : List Device :=
  if registry.length = 0 then getAdbDevices enumr registry else registry

/-- `VTestFunctions.getFreeDevices`, with the enumeration that a lazy
`getAdbDevices()` call would see passed explicitly.  Returns the updated
registry and the response: the error `"No free devices"` exactly when no
device was collected, otherwise the collected ids. -/
def getFreeDevices (num : Nat) (wish : List String) (enumr : List (String × String))
    (registry : List Device) : List Device × DeviceIdResponse :=
  let s := gfdScan num wish 0 (scanReg enumr registry)
  if s.2.length = 0 then (s.1, { result := [], error := "No free devices" })
  else (s.1, { result := s.2, error := "" })

/-- The free (not in use) devices of a registry, in order. -/
def freeDevices (l : List Device) : List Device := l.filter (fun d => !d.in_use)

/-- Ids of the free devices of a registry, in order. -/
def freeIds (l : List Device) : List String := (freeDevices l).map (fun d => d.id)

/-- `BooleanResponse` of `grpc_server.py`. -/
structure BooleanResponse where
  result : Bool := false
  error : String := ""
deriving DecidableEq

/-- `VTestFunctions.unlockDevice`: the sentinel id `"__ALL__"` clears
`in_use` on every record; otherwise, when a record with the id exists,
its `in_use` is cleared; an unknown id yields an error response and no
registry change. -/
def unlockDevice (did : String) (registry : List Device) : List Device × BooleanResponse :=
  if did = "__ALL__" then
    (registry.map (fun d => { d with in_use := false }), { result := true })
  else if registry.any (fun d => d.id = did) then
    (registry.map (fun d => if d.id = did then { d with in_use := false } else d),
      { result := true })
  else (registry, { result := false, error := s!"Device not found: {did}" })

/-! ## Host command executor (`utils/device.py`) -/

/-- Outcome of the underlying `subprocess` call made by
`Device._exec_adb`: normal completion with captured stdout/stderr,
`subprocess.TimeoutExpired` after the fixed `ADB_EXECUTION_TIMEOUT`, or
any other exception. -/
inductive AdbOutcome where
  | completed (stdout : String) (stderr : String)
  | timedOut (msg : String)
  | failed (msg : String)
deriving DecidableEq

/-- `Device._exec_adb`: on completion the decoded stdout is returned and
stderr is reported only when non-empty; a timeout or any other exception
is caught and returned as `("", message)` — never re-raised. -/
def exec_adb : AdbOutcome → String × Option String
  | .completed stdout stderr => (stdout, if stderr = "" then none else some stderr)
  | .timedOut msg => ("", some msg)
  | .failed msg => ("", some msg)

/-- Python substring containment `needle in hay`. -/
def strContains (hay needle : String) : Bool :=
  (List.range (hay.toList.length + 1)).any
    (fun i => needle.toList.isPrefixOf (hay.toList.drop i))

/-- `Device.is_package_installed` applied to the stdout of
`pm list packages`: case-insensitive substring match of the package name
against each line of the listing. -/
def is_package_installed (pmOut pname : String) : Bool :=
  (pmOut.splitOn "\n").any (fun line => strContains line.toLower pname.toLower)

/-- Result of `Device.install_apk` together with the
`last_installed_app` field after the call. -/
structure InstallOutcome where
  error : Bool
  msg : String
  lastApp : Option String
deriving DecidableEq

/-- `Device.install_apk`, with the external observations passed
explicitly: whether the apk file exists, the result of
`get_package_name`, the `pm list packages` stdout observed by the
post-install verification, and the stderr of the `adb install`
invocation.  The pre-clean `uninstall_apk(package_name=pname)` call has
an explicit package, so it leaves `last_installed_app` untouched.  The
install succeeds, and records the package, exactly when the verification
finds the package in the listing; the stderr text only ever feeds the
error message. -/
def install_apk (fileFound : Bool) (pkgName : Option String) (pmOut : String)
    (stderr : Option String) (lastApp : Option String) : InstallOutcome :=
  if !fileFound then ⟨true, "File to install not found!", lastApp⟩
  else
    match pkgName with
    | none => ⟨true, "Could not get package name", lastApp⟩
    | some pname =>
      if is_package_installed pmOut pname then ⟨false, "", some pname⟩
      else ⟨true, "Could not install App, stderr: " ++ stderr.getD "", lastApp⟩

/-- `Device.uninstall_apk`: picks the explicit package if given, else
falls back to `last_installed_app` (clearing it), else fails.  The
`adb uninstall` invocation's outcome is discarded (`let _ := ...`
mirrors the source dropping the `_exec_adb` return value), so the call
reports `true` whenever a package name was available, whatever the tool
did.  Returns (success, `last_installed_app` after the call). -/
def uninstall_apk (outc : AdbOutcome) (package_name : Option String)
    (lastApp : Option String) : Bool × Option String :=
  match package_name, lastApp with
  | some _, la =>
    let _ := exec_adb outc
    (true, la)
  | none, some _ =>
    let _ := exec_adb outc
    (true, none)
  | none, none => (false, none)

/-- `Device.run_apk`: fails only when no package is tracked as
installed; the launch invocation's outcome is discarded, so the call
reports `true` whenever a package is tracked, whatever the tool did. -/
def run_apk (outc : AdbOutcome) (lastApp : Option String) (custom_cmd : String) : Bool :=
  match lastApp with
  | none => false
  | some _ =>
    let _ := custom_cmd
    let _ := exec_adb outc
    true

/-! ## Chunked transfer (`grpc_client.py` / `grpc_server.py`) -/

/-- 1 MiB chunk size shared by client and server. -/
def CHUNK_SIZE : Nat := 1024 * 1024

/-- The chunking loop shared by `upload_file`'s generator and the
server's `PullFile`: repeatedly `read(CHUNK_SIZE)` until the read comes
back empty.  An empty content yields no chunks at all. -/
def chunkBytes (content : List Nat) : List (List Nat) :=
  if h : content = [] then []
  else content.take CHUNK_SIZE :: chunkBytes (content.drop CHUNK_SIZE)
termination_by content.length
decreasing_by
  simp only [List.length_drop]
  have h1 : 0 < content.length := List.length_pos.mpr h
  have h2 : 0 < CHUNK_SIZE := by decide
  omega

/-- `CommunicationServicer.UploadFile`: reads the first request with
`next(request_iterator)` — which fails when the client streamed no
chunk, so nothing is stored (`none`) — then writes the first chunk and
every subsequent chunk sequentially into one file. -/
def uploadFileServer (chunks : List (List Nat)) : Option (List Nat) :=
  match chunks with
  | [] => none
  | first :: rest => some (rest.foldl (fun acc c => acc ++ c) first)

/-- The accumulation loop of `pull_file`:
`full_response += chunk.chunk_data` over the chunks the server streams
for the stored file. -/
def pullReassemble (file : List Nat) : List Nat :=
  (chunkBytes file).foldl (fun acc c => acc ++ c) []

/-! ## Pull decode (`pull_file` of `grpc_client.py`) -/

/-- UTF-8 continuation byte test. -/
def isCont (b : Nat) : Bool := decide (0x80 ≤ b) && decide (b < 0xC0)

/-- `bytes.decode("utf-8", "ignore")` as used by `pull_file`: a total
decode that skips undecodable bytes instead of raising.  Returned as the
list of decoded code points. -/
def decodeUtf8Ignore : List Nat → List Nat
  | [] => []
  | b1 :: t1 =>
    if b1 < 0x80 then b1 :: decodeUtf8Ignore t1
    else if b1 < 0xC2 then decodeUtf8Ignore t1
    else if b1 < 0xE0 then
      match t1 with
      | [] => []
      | b2 :: t2 =>
        if isCont b2 then ((b1 - 0xC0) * 0x40 + (b2 - 0x80)) :: decodeUtf8Ignore t2
        else decodeUtf8Ignore (b2 :: t2)
    else if b1 < 0xF0 then
      match t1 with
      | [] => []
      | b2 :: t2 =>
        if (if b1 = 0xE0 then decide (0xA0 ≤ b2) && decide (b2 < 0xC0)
            else if b1 = 0xED then decide (0x80 ≤ b2) && decide (b2 < 0xA0)
            else isCont b2) then
          match t2 with
          | [] => []
          | b3 :: t3 =>
            if isCont b3 then
              ((b1 - 0xE0) * 0x1000 + (b2 - 0x80) * 0x40 + (b3 - 0x80))
                :: decodeUtf8Ignore t3
            else decodeUtf8Ignore (b3 :: t3)
        else decodeUtf8Ignore (b2 :: t2)
    else if b1 < 0xF5 then
      match t1 with
      | [] => []
      | b2 :: t2 =>
        if (if b1 = 0xF0 then decide (0x90 ≤ b2) && decide (b2 < 0xC0)
            else if b1 = 0xF4 then decide (0x80 ≤ b2) && decide (b2 < 0x90)
            else isCont b2) then
          match t2 with
          | [] => []
          | b3 :: t3 =>
            if isCont b3 then
              match t3 with
              | [] => []
              | b4 :: t4 =>
                if isCont b4 then
                  ((b1 - 0xF0) * 0x40000 + (b2 - 0x80) * 0x1000
                      + (b3 - 0x80) * 0x40 + (b4 - 0x80))
                    :: decodeUtf8Ignore t4
                else decodeUtf8Ignore (b4 :: t4)
            else decodeUtf8Ignore (b3 :: t3)
        else decodeUtf8Ignore (b2 :: t2)
    else decodeUtf8Ignore t1

/-- The outcomes `pull_file` can produce: a `grpc.RpcError` caught from
the stream (e.g. the server's not-found for a missing file), the
`"Decode Error: ..."` branch of the source's second `try`, or a
successful decode.  The decode branch in the source wraps
`full_response.decode("utf-8", "ignore")`, which is total, so the
`decodeError` constructor mirrors a branch the code can never take. -/
inductive PullOutcome where
  | rpcError (msg : String)
  | decodeError (msg : String)
  | ok (text : List Nat)
deriving DecidableEq

/-- `pull_file` over the server's file lookup: a missing file surfaces
as the caught RPC error; an existing file is streamed in chunks,
reassembled, and decoded with `errors="ignore"`. -/
def pull_file (file : Option (List Nat)) : PullOutcome :=
  match file with
  | none => .rpcError "StatusCode.NOT_FOUND, File not found"
  | some content => .ok (decodeUtf8Ignore (pullReassemble content))

/-! ## Execution pipeline (`app_executor.py` / `device_context.py`) -/

/-- `GRPCResult` of `grpc_client.py`. -/
structure GResult where
  ret : Option String := none
  err : Option String := none
deriving DecidableEq

/-- One run's worth of remote responses and cleanup-call behaviour, the
explicit-state rendering of everything `execute_app` observes: the
`GRPCResult` of each pipeline call, and whether each of the three
cleanup calls made by `DeviceUsage.__exit__` raises (transport
failure). -/
structure ExecEnv where
  startLogcatRes : GResult
  installRes : GResult
  runRes : GResult
  uninstallRes : GResult
  stopLogcatRes : GResult
  pullRes : GResult
  exitUninstallRaises : Bool
  exitStopLogcatRaises : Bool
  exitUnlockRaises : Bool
deriving DecidableEq

/-- `ExecutionResult` of `app_executor.py`. -/
structure ExecutionResult where
  error : Bool
  devid : String
  result : String
  logcat_file : Option String := none
deriving DecidableEq

/-- Python's rendering of an optional string inside an f-string
(`None` for the absent case). -/
def pyStr : Option String → String
  | none => "None"
  | some s => s

/-- The `try` block of `execute_app`: the five pipeline stages in
order, each aborting with its specific message on an error response
(`err` not `None`); reaching the end clears the error flag. -/
def executeAppTry (env : ExecEnv) (devid : String) : ExecutionResult :=
  let r : ExecutionResult := { error := true, devid := devid, result := "" }
  match env.startLogcatRes.err with
  | some e => { r with result := s!"Error start_logcat_collect: {e}" }
  | none =>
    match env.installRes.err with
    | some e => { r with result := s!"Error install_app: {e}" }
    | none =>
      match env.runRes.err with
      | some e => { r with result := e }
      | none =>
        match env.uninstallRes.err with
        | some e => { r with result := s!"Error uninstall_app: {e}" }
        | none => { r with error := false }

/-- The `finally` block of `execute_app` (unconditional finalization):
stop the logcat session — any error or missing file name there
overrides the outcome — then pull the logcat file; a pull failure's
message interpolates `response.err`, which at that point is the
stop-logcat response's error (a source quirk kept as is); on success
the pulled content is attached as the logcat file. -/
def executeAppFinally (env : ExecEnv) (r : ExecutionResult) : ExecutionResult :=
  if env.stopLogcatRes.err.isSome || env.stopLogcatRes.ret.isNone then
    { r with error := true,
             result := s!"Error stopping logcat: {pyStr env.stopLogcatRes.err}" }
  else if env.pullRes.err.isSome || env.pullRes.ret.isNone then
    { r with error := true,
             result := s!"Error pulling logcat: {pyStr env.stopLogcatRes.err}" }
  else { r with logcat_file := env.pullRes.ret }

/-- The three cleanup actions of `DeviceUsage.__exit__`, in source
order. -/
inductive CleanupOp where
  | uninstallApp
  | stopLogcat
  | unlock
deriving DecidableEq

/-- The `cleanup_operations` list of `DeviceUsage.__exit__`. -/
def cleanupOperations : List CleanupOp := [.uninstallApp, .stopLogcat, .unlock]

/-- Whether a given cleanup call raises, per the environment. -/
def opRaises (env : ExecEnv) : CleanupOp → Bool
  | .uninstallApp => env.exitUninstallRaises
  | .stopLogcat => env.exitStopLogcatRaises
  | .unlock => env.exitUnlockRaises

/-- Server-side registry effect of `VTestFunctions.uninstallApp`: the
device's `uninstall_apk()` fallback clears `last_installed_app`; the
`in_use` flag is untouched. -/
def uninstallAppSrv (did : String) (registry : List Device) : List Device :=
  registry.map (fun d => if d.id = did then { d with last_installed_app := none } else d)

/-- Server-side registry effect of one delivered cleanup call. -/
def opServerEffect (did : String) (registry : List Device) : CleanupOp → List Device
  | .uninstallApp => uninstallAppSrv did registry
  | .stopLogcat => registry
  | .unlock => (unlockDevice did registry).1

/-- `DeviceUsage.__exit__`: iterate over `cleanup_operations`, invoking
each; an exception from one operation is caught and the loop
`continue`s with the next (the raising call has no server effect).
Returns the operations attempted, in order, and the registry after. -/
def deviceUsageExit (env : ExecEnv) (did : String) (registry : List Device) :
    List CleanupOp × List Device :=
  cleanupOperations.foldl
    (fun acc op =>
      if opRaises env op then (acc.1 ++ [op], acc.2)
      else (acc.1 ++ [op], opServerEffect did acc.2 op))
    ([], registry)

/-- `execute_app`: the `with DeviceUsage(...)` body — the `try` stages
then the `finally` finalization — followed by `DeviceUsage.__exit__`'s
three cleanup calls against the server registry.  Returns the caller's
`ExecutionResult`, the cleanup calls attempted, and the registry
after. -/
def execute_app (env : ExecEnv) (did : String) (registry : List Device) :
    ExecutionResult × List CleanupOp × List Device :=
  let body := executeAppFinally env (executeAppTry env did)
  (body, deviceUsageExit env did registry)

/-! ## Concrete inputs used by the witnesses -/

/-- A run whose install stage fails and whose first two cleanup calls
raise, while the unlock cleanup call is delivered. -/
def envW : ExecEnv :=
  { startLogcatRes := {}
    installRes := { err := some "INSTALL_FAILED" }
    runRes := {}
    uninstallRes := {}
    stopLogcatRes := { ret := some "/tmp/logcat" }
    pullRes := { ret := some "logcat text" }
    exitUninstallRaises := true
    exitStopLogcatRaises := true
    exitUnlockRaises := false }

/-- A one-device registry whose device is leased and mid-pipeline. -/
def regW : List Device :=
  [{ id := "dev1", state := "device", in_use := true,
     last_installed_app := some "com.example.app" }]

/-- The record of `regW`'s device after the lease is released. -/
def devW : Device :=
  { id := "dev1", state := "device", in_use := false,
    last_installed_app := some "com.example.app" }

/-- A registry with two free devices. -/
def regAB : List Device := [mkDevice "devA" "device", mkDevice "devB" "device"]

/-- A leased device record with a tracked package. -/
def devA4 : Device :=
  { id := "a", state := "device", in_use := true, last_installed_app := some "pkg" }

/-- A leased device record. -/
def devA6 : Device :=
  { id := "a", state := "device", in_use := true, last_installed_app := none }

/-! ## Helper lemmas -/

lemma chunkBytes_nil : chunkBytes [] = [] := by rw [chunkBytes]; simp

lemma chunkBytes_cons (c : List Nat) (h : c ≠ []) :
    chunkBytes c = c.take CHUNK_SIZE :: chunkBytes (c.drop CHUNK_SIZE) := by
  rw [chunkBytes]; simp [h]

lemma chunkBytes_flatten :
    ∀ (n : Nat) (c : List Nat), c.length ≤ n → (chunkBytes c).flatten = c := by
  intro n
  induction n with
  | zero =>
    intro c hc
    have : c = [] := List.eq_nil_of_length_eq_zero (Nat.le_zero.mp hc)
    subst this
    simp [chunkBytes_nil]
  | succ n ih =>
    intro c hc
    by_cases h : c = []
    · subst h; simp [chunkBytes_nil]
    · rw [chunkBytes_cons c h, List.flatten_cons]
      have hd : (c.drop CHUNK_SIZE).length ≤ n := by
        have h1 : 0 < c.length := List.length_pos.mpr h
        have h2 : 0 < CHUNK_SIZE := by decide
        simp only [List.length_drop]
        omega
      rw [ih _ hd, List.take_append_drop]

lemma foldl_append_eq (l : List (List Nat)) :
    ∀ first : List Nat, l.foldl (fun acc c => acc ++ c) first = first ++ l.flatten := by
  induction l with
  | nil => intro first; simp
  | cons c t ih => intro first; simp [ih, List.append_assoc]

lemma pullReassemble_eq (c : List Nat) : pullReassemble c = c := by
  rw [pullReassemble, foldl_append_eq]
  simpa using chunkBytes_flatten c.length c le_rfl

lemma uploadFileServer_chunk (c : List Nat) (h : c ≠ []) :
    uploadFileServer (chunkBytes c) = some c := by
  rw [chunkBytes_cons c h]
  rw [uploadFileServer]
  rw [foldl_append_eq]
  congr 1
  have hd : (c.drop CHUNK_SIZE).length ≤ c.length := by simp
  rw [chunkBytes_flatten c.length _ hd, List.take_append_drop]

lemma gfdScan_mem_wish (num : Nat) (wish : List String) (hw : wish ≠ []) :
    ∀ (l : List Device) (k : Nat), ∀ id ∈ (gfdScan num wish k l).2, id ∈ wish := by
  intro l
  induction l with
  | nil => intro k id h; simp [gfdScan] at h
  | cons d rest ih =>
    intro k id h
    rw [gfdScan] at h
    by_cases hu : d.in_use
    · simp only [hu, if_true] at h
      exact ih k id h
    · simp only [hu] at h
      have hlen : ¬ wish.length = 0 := by
        simpa [List.length_eq_zero] using hw
      simp only [hlen, if_false, if_true, Bool.false_eq_true] at h
      by_cases hc : wish.contains d.id
      · simp only [hc, if_true] at h
        rcases List.mem_cons.mp h with h1 | h2
        · subst h1; exact List.mem_of_elem_eq_true hc
        · exact ih k id h2
      · simp only [hc, Bool.false_eq_true, if_false] at h
        exact ih k id h

lemma gfdScan_count (num : Nat) :
    ∀ (l : List Device) (k : Nat), k ≤ num → (gfdScan num [] k l).2.length + k ≤ num := by
  intro l
  induction l with
  | nil => intro k hk; simp [gfdScan]; omega
  | cons d rest ih =>
    intro k hk
    rw [gfdScan]
    by_cases hu : d.in_use
    · simp only [hu, if_true]
      exact ih k hk
    · simp only [hu, Bool.false_eq_true, if_false, List.length_nil, if_true]
      by_cases hkn : k = num
      · simp [hkn]
      · simp only [hkn, if_false]
        have := ih (k + 1) (by omega)
        simp only [List.length_cons]
        omega

lemma gfdScan_free_src (num : Nat) (wish : List String) :
    ∀ (l : List Device) (k : Nat), ∀ id ∈ (gfdScan num wish k l).2,
      ∃ d ∈ l, d.id = id ∧ d.in_use = false := by
  intro l
  induction l with
  | nil => intro k id h; simp [gfdScan] at h
  | cons d rest ih =>
    intro k id h
    rw [gfdScan] at h
    by_cases hu : d.in_use
    · simp only [hu, if_true] at h
      obtain ⟨d', hd', hid, hfree⟩ := ih k id h
      exact ⟨d', List.mem_cons_of_mem _ hd', hid, hfree⟩
    · simp only [hu] at h
      have hfree : d.in_use = false := by
        simpa using hu
      by_cases hlen : wish.length = 0
      · simp only [hlen, if_true] at h
        by_cases hkn : k = num
        · simp [hkn] at h
        · simp only [hkn, if_false] at h
          rcases List.mem_cons.mp h with h1 | h2
          · exact ⟨d, List.mem_cons_self d rest, h1.symm, hfree⟩
          · obtain ⟨d', hd', hid, hf⟩ := ih (k + 1) id h2
            exact ⟨d', List.mem_cons_of_mem _ hd', hid, hf⟩
      · simp only [hlen, if_false] at h
        by_cases hc : wish.contains d.id
        · simp only [hc, if_true] at h
          rcases List.mem_cons.mp h with h1 | h2
          · exact ⟨d, List.mem_cons_self d rest, h1.symm, hfree⟩
          · obtain ⟨d', hd', hid, hf⟩ := ih k id h2
            exact ⟨d', List.mem_cons_of_mem _ hd', hid, hf⟩
        · simp only [hc, Bool.false_eq_true, if_false] at h
          obtain ⟨d', hd', hid, hf⟩ := ih k id h
          exact ⟨d', List.mem_cons_of_mem _ hd', hid, hf⟩

lemma gfdScan_all_free (num : Nat) :
    ∀ (l : List Device) (k : Nat), k + (freeIds l).length ≤ num →
      (gfdScan num [] k l).2 = freeIds l := by
  intro l
  induction l with
  | nil => intro k _; simp [gfdScan, freeIds, freeDevices]
  | cons d rest ih =>
    intro k hk
    rw [gfdScan]
    by_cases hu : d.in_use
    · simp only [hu, if_true]
      have : freeIds (d :: rest) = freeIds rest := by
        simp [freeIds, freeDevices, hu]
      rw [this] at hk ⊢
      exact ih k hk
    · have hids : freeIds (d :: rest) = d.id :: freeIds rest := by
        simp [freeIds, freeDevices, hu]
      rw [hids] at hk ⊢
      have hkn : ¬ k = num := by
        simp only [List.length_cons] at hk
        omega
      simp only [hu, Bool.false_eq_true, if_false, List.length_nil, if_true, hkn]
      have := ih (k + 1) (by simp only [List.length_cons] at hk; omega)
      simp [this]

lemma gfdScan_zero_req :
    ∀ l : List Device, gfdScan 0 [] 0 l = (l, []) := by
  intro l
  induction l with
  | nil => simp [gfdScan]
  | cons d rest ih =>
    rw [gfdScan]
    by_cases hu : d.in_use
    · simp [hu, ih]
    · simp [hu]

lemma mem_addDevice (reg : List Device) (d x : Device) (h : x ∈ reg) :
    x ∈ addDevice reg d := by
  rw [addDevice]
  split
  · exact h
  · exact List.mem_append_left _ h

lemma mem_foldl_adbAddStep (l : List (String × String)) :
    ∀ (reg : List Device) (x : Device), x ∈ reg → x ∈ l.foldl adbAddStep reg := by
  induction l with
  | nil => intro reg x h; simpa using h
  | cons p t ih =>
    intro reg x h
    rw [List.foldl_cons]
    apply ih
    rw [adbAddStep]
    split
    · exact mem_addDevice _ _ _ h
    · exact h

lemma foldl_adbAddStep_src (l : List (String × String)) :
    ∀ (reg : List Device) (x : Device), x ∈ l.foldl adbAddStep reg →
      x ∈ reg ∨ ∃ p ∈ l, p.2 = "device" ∧ x = mkDevice p.1 p.2 := by
  induction l with
  | nil => intro reg x h; left; simpa using h
  | cons p t ih =>
    intro reg x h
    rw [List.foldl_cons] at h
    rcases ih _ x h with h1 | ⟨q, hq, hqd, hx⟩
    · rw [adbAddStep] at h1
      split at h1
      · rw [addDevice] at h1
        split at h1
        · exact Or.inl h1
        · rcases List.mem_append.mp h1 with h2 | h2
          · exact Or.inl h2
          · right
            refine ⟨p, List.mem_cons_self p t, by assumption, ?_⟩
            simpa using h2
      · exact Or.inl h1
    · exact Or.inr ⟨q, List.mem_cons_of_mem _ hq, hqd, hx⟩

lemma exists_id_addDevice (reg : List Device) (d : Device) :
    ∃ x ∈ addDevice reg d, x.id = d.id := by
  rw [addDevice]
  split
  · next h =>
    obtain ⟨x, hx, hid⟩ := List.any_eq_true.mp h
    exact ⟨x, hx, by simpa using hid⟩
  · exact ⟨d, List.mem_append_right _ (List.mem_singleton.mpr rfl), rfl⟩

lemma exists_id_foldl (l : List (String × String)) :
    ∀ (reg : List Device) (id : String), (id, "device") ∈ l →
      ∃ x ∈ l.foldl adbAddStep reg, x.id = id := by
  induction l with
  | nil => intro reg id h; simp at h
  | cons p t ih =>
    intro reg id h
    rw [List.foldl_cons]
    rcases List.mem_cons.mp h with h1 | h2
    · subst h1
      have : adbAddStep reg (id, "device") = addDevice reg (mkDevice id "device") := by
        simp [adbAddStep]
      rw [this]
      obtain ⟨x, hx, hid⟩ := exists_id_addDevice reg (mkDevice id "device")
      exact ⟨x, mem_foldl_adbAddStep t _ x hx, hid⟩
    · exact ih _ id h2

lemma unlockDevice_in_use (did : String) (reg : List Device) :
    ∀ d ∈ (unlockDevice did reg).1, d.id = did → d.in_use = false := by
  intro d hd hid
  rw [unlockDevice] at hd
  by_cases hall : did = "__ALL__"
  · simp only [hall, if_true] at hd
    obtain ⟨x, _, hx⟩ := List.mem_map.mp hd
    rw [← hx]
  · simp only [hall, if_false] at hd
    split at hd
    · obtain ⟨x, _, hx⟩ := List.mem_map.mp hd
      by_cases hxid : x.id = did
      · simp only [hxid, if_true] at hx
        rw [← hx]
      · simp only [hxid, if_false] at hx
        subst hx
        exact absurd hid hxid
    · next hno =>
      exfalso
      exact hno (List.any_eq_true.mpr ⟨d, hd, by simpa using hid⟩)

lemma deviceUsageExit_ops (env : ExecEnv) (did : String) (registry : List Device) :
    (deviceUsageExit env did registry).1 = cleanupOperations := by
  rw [deviceUsageExit, cleanupOperations]
  simp only [List.foldl_cons, List.foldl_nil]
  by_cases h1 : opRaises env CleanupOp.uninstallApp <;>
    by_cases h2 : opRaises env CleanupOp.stopLogcat <;>
      by_cases h3 : opRaises env CleanupOp.unlock <;>
        simp [h1, h2, h3]

lemma deviceUsageExit_unlock (env : ExecEnv) (did : String) (registry : List Device)
    (h : env.exitUnlockRaises = false) :
    ∀ d ∈ (deviceUsageExit env did registry).2, d.id = did → d.in_use = false := by
  rw [deviceUsageExit, cleanupOperations]
  simp only [List.foldl_cons, List.foldl_nil]
  have h3 : opRaises env CleanupOp.unlock = false := h
  by_cases h1 : opRaises env CleanupOp.uninstallApp <;>
    by_cases h2 : opRaises env CleanupOp.stopLogcat <;>
      simp only [h1, h2, h3, if_true, if_false, Bool.false_eq_true, opServerEffect] <;>
        exact fun d hd hid => unlockDevice_in_use did _ d hd hid

/-! ## Claim theorems -/

/-- Claim C1: whichever pipeline stage of `execute_app` fails (any
environment of stage responses), the outer `DeviceUsage.__exit__`
cleanup attempts all three release actions — uninstall the app, stop
the logcat session, release the lease — in order, each even if an
earlier one raises; and whenever the unlock call itself is delivered,
every registry record for the device ends with `in_use = false`. -/
theorem c1_pipeline_cleanup (env : ExecEnv) (did : String) (registry : List Device) :
    (execute_app env did registry).2.1 = cleanupOperations ∧
    (env.exitUnlockRaises = false →
      ∀ d ∈ (execute_app env did registry).2.2, d.id = did → d.in_use = false) :=
  ⟨deviceUsageExit_ops env did registry,
   fun h => deviceUsageExit_unlock env did registry h⟩

/-- Witness for C1: a run with a failed install stage and raising
uninstall/stop-logcat cleanup calls still attempts all three cleanup
actions and leaves the device unleased. -/
theorem c1_pipeline_cleanup_witness :
    (execute_app envW "dev1" regW).2.1 = cleanupOperations ∧ devW.in_use = false :=
  ⟨(c1_pipeline_cleanup envW "dev1" regW).1,
   (c1_pipeline_cleanup envW "dev1" regW).2 rfl devW (by decide) rfl⟩

/-- Counterexample to claim C2 at the explicit input `[]`: uploading the
empty content streams no chunk, so the server's read of the first
request fails and no file is stored — the upload/pull roundtrip does not
reproduce the empty content. -/
theorem c2_empty_upload_counterexample : uploadFileServer (chunkBytes []) = none := by
  rw [chunkBytes_nil]; rfl

/-- Claim C2 (amended): for every nonempty file content, the chunked
upload stores exactly the original bytes and the chunked pull
reassembles exactly those bytes; the empty content is excluded, since
its upload stores nothing (see the counterexample). -/
theorem c2_roundtrip_amended (content : List Nat) (h : content ≠ []) :
    uploadFileServer (chunkBytes content) = some content ∧
    pullReassemble content = content :=
  ⟨uploadFileServer_chunk content h, pullReassemble_eq content⟩

/-- Witness for C2 (amended), at a content smaller than one chunk and at
one larger than one chunk. -/
theorem c2_roundtrip_amended_witness :
    uploadFileServer (chunkBytes [1, 2, 3]) = some [1, 2, 3] ∧
    pullReassemble (List.replicate (CHUNK_SIZE + 1) 7) = List.replicate (CHUNK_SIZE + 1) 7 :=
  ⟨(c2_roundtrip_amended [1, 2, 3] (by decide)).1,
   (c2_roundtrip_amended (List.replicate (CHUNK_SIZE + 1) 7) (by simp)).2⟩

/-- Claim C3: leasing with a non-empty wish list returns only ids from
that list; leasing with an empty wish list returns at most the requested
count; and every returned id belongs to a device of the scanned registry
(the input registry, or the lazily refreshed one when the input is
empty) that had `in_use = false` before the call. -/
theorem c3_lease_filter (num : Nat) (wish : List String) (enumr : List (String × String))
    (registry : List Device) :
    (wish ≠ [] → ∀ id ∈ (getFreeDevices num wish enumr registry).2.result, id ∈ wish) ∧
    (wish = [] → (getFreeDevices num wish enumr registry).2.result.length ≤ num) ∧
    (∀ id ∈ (getFreeDevices num wish enumr registry).2.result,
      ∃ d ∈ scanReg enumr registry, d.id = id ∧ d.in_use = false) := by
  have hsub : ∀ id ∈ (getFreeDevices num wish enumr registry).2.result,
      id ∈ (gfdScan num wish 0 (scanReg enumr registry)).2 := by
    intro id h
    rw [getFreeDevices] at h
    split at h
    · simp at h
    · exact h
  refine ⟨fun hw id h => gfdScan_mem_wish num wish hw _ 0 id (hsub id h), ?_, ?_⟩
  · intro hw
    subst hw
    rw [getFreeDevices]
    split
    · simp
    · have := gfdScan_count num (scanReg enumr registry) 0 (Nat.zero_le num)
      simpa using this
  · intro id h
    exact gfdScan_free_src num wish _ 0 id (hsub id h)

/-- Witness for C3: on a two-free-device registry, a wish-list lease
returns an id of the wish list, an empty-wish lease of one returns at
most one id, and the returned device was free. -/
theorem c3_lease_filter_witness :
    ("devA" ∈ ["devA"]) ∧
    ((getFreeDevices 1 [] [] regAB).2.result.length ≤ 1) ∧
    (∃ d ∈ scanReg [] regAB, d.id = "devA" ∧ d.in_use = false) :=
  ⟨(c3_lease_filter 1 ["devA"] [] regAB).1 (by decide) "devA" (by decide),
   (c3_lease_filter 1 [] [] regAB).2.1 rfl,
   (c3_lease_filter 1 [] [] regAB).2.2 "devA" (by decide)⟩

/-- Counterexample to claim C4 at the explicit input of one enumerated
device in state `"unauthorized"` (a usable state per
`VALID_DEVICE_STATES`) and an empty registry: `getAdbDevices` creates no
record for it, refuting that every usable-state device is upserted. -/
theorem c4_unauthorized_counterexample :
    VALID_DEVICE_STATES.contains "unauthorized" = true ∧
    getAdbDevices [("emu-5554", "unauthorized")] [] = [] := by decide

/-- Claim C4 (amended): refresh upserts a record only for enumerated
devices in state `"device"` (online); an enumerated device in another
state gets no new record (provided no same-id online entry is also
enumerated); and a record already present is never overwritten — it
survives unchanged whenever its id is still enumerated. -/
theorem c4_refresh_amended (enumr : List (String × String)) (registry : List Device) :
    (∀ d ∈ registry, (∃ p ∈ enumr, p.1 = d.id) → d ∈ getAdbDevices enumr registry) ∧
    (∀ p ∈ enumr, p.2 = "device" → ∃ d ∈ getAdbDevices enumr registry, d.id = p.1) ∧
    (∀ p ∈ enumr, p.2 ≠ "device" → (∀ d ∈ registry, d.id ≠ p.1) →
      (∀ q ∈ enumr, q.1 = p.1 → q.2 ≠ "device") →
      ∀ d ∈ getAdbDevices enumr registry, d.id ≠ p.1) := by
  refine ⟨?_, ?_, ?_⟩
  · intro d hd ⟨p, hp, hpid⟩
    rw [getAdbDevices]
    refine List.mem_filter.mpr ⟨mem_foldl_adbAddStep enumr registry d hd, ?_⟩
    exact List.any_eq_true.mpr ⟨p, hp, by simpa using hpid⟩
  · intro p hp hpd
    obtain ⟨x, hx, hxid⟩ := exists_id_foldl enumr registry p.1 (by
      have : p = (p.1, "device") := by
        rcases p with ⟨a, b⟩
        simp at hpd
        simp [hpd]
      rwa [this] at hp)
    refine ⟨x, ?_, hxid⟩
    rw [getAdbDevices]
    refine List.mem_filter.mpr ⟨hx, ?_⟩
    exact List.any_eq_true.mpr ⟨p, hp, by simp [hxid]⟩
  · intro p hp hpd hreg hq d hd
    rw [getAdbDevices] at hd
    have hd1 := (List.mem_filter.mp hd).1
    rcases foldl_adbAddStep_src enumr registry d hd1 with h1 | ⟨q, hqm, hqd, hx⟩
    · exact hreg d h1
    · intro hcontra
      subst hx
      exact hq q hqm (by simpa [mkDevice] using hcontra) hqd

/-- Witness for C4 (amended): an existing leased record survives a
refresh unchanged, its online id keeps a record, and the unauthorized id
`"b"` gets none. -/
theorem c4_refresh_amended_witness :
    devA4 ∈ getAdbDevices [("a", "device"), ("b", "unauthorized")] [devA4] ∧
    (∃ d ∈ getAdbDevices [("a", "device"), ("b", "unauthorized")] [devA4], d.id = "a") ∧
    devA4.id ≠ "b" :=
  ⟨(c4_refresh_amended [("a", "device"), ("b", "unauthorized")] [devA4]).1 devA4 (by decide)
      ⟨("a", "device"), by decide, rfl⟩,
   (c4_refresh_amended [("a", "device"), ("b", "unauthorized")] [devA4]).2.1
      ("a", "device") (by decide) rfl,
   (c4_refresh_amended [("a", "device"), ("b", "unauthorized")] [devA4]).2.2
      ("b", "unauthorized") (by decide) (by decide) (by decide) (by decide) devA4 (by decide)⟩

/-- Claim C5: `getFreeDevices` returns the error `"No free devices"` if
and only if its scan collected nothing; and with an empty wish list,
when at least one but fewer than the requested count of devices are
free, the call succeeds with exactly the free device ids and no
error. -/
theorem c5_error_iff_empty (num : Nat) (wish : List String) (enumr : List (String × String))
    (registry : List Device) :
    ((getFreeDevices num wish enumr registry).2.error = "No free devices" ↔
      (gfdScan num wish 0 (scanReg enumr registry)).2 = []) ∧
    (wish = [] → 0 < (freeIds (scanReg enumr registry)).length →
      (freeIds (scanReg enumr registry)).length < num →
      (getFreeDevices num wish enumr registry).2
        = { result := freeIds (scanReg enumr registry), error := "" }) := by
  constructor
  · constructor
    · intro h
      rw [getFreeDevices] at h
      split at h
      · next hlen => exact List.length_eq_zero.mp hlen
      · simp at h
    · intro h
      rw [getFreeDevices]
      split
      · rfl
      · next hlen => exact absurd (by simp [h]) hlen
  · intro hw h0 hlt
    subst hw
    have heq := gfdScan_all_free num (scanReg enumr registry) 0 (by omega)
    rw [getFreeDevices, heq]
    split
    · next hlen => omega
    · rfl

/-- Witness for C5: requesting 3 devices from a registry with exactly 2
free devices succeeds with both ids and no error. -/
theorem c5_error_iff_empty_witness :
    (getFreeDevices 3 [] [] regAB).2 = { result := ["devA", "devB"], error := "" } :=
  (c5_error_iff_empty 3 [] [] regAB).2 rfl (by decide) (by decide)

/-- Claim C6: a previously-known device absent from the new enumeration
is deleted from the registry by `getAdbDevices`, regardless of its
`in_use` flag (no hypothesis on the lease state is needed). -/
theorem c6_removed_deleted (enumr : List (String × String)) (registry : List Device)
    (d : Device) (_hmem : d ∈ registry) (habs : ∀ p ∈ enumr, p.1 ≠ d.id) :
    ¬ ∃ d' ∈ getAdbDevices enumr registry, d'.id = d.id := by
  rintro ⟨d', hd', hid⟩
  rw [getAdbDevices] at hd'
  have hpred := (List.mem_filter.mp hd').2
  obtain ⟨p, hp, hpid⟩ := List.any_eq_true.mp hpred
  exact habs p hp (by simpa [hid] using hpid)

/-- Witness for C6: a leased (`in_use = true`) device `"a"` disappears
from the registry when the enumeration reports only `"b"`. -/
theorem c6_removed_deleted_witness :
    devA6 ∉ getAdbDevices [("b", "device")] [devA6] :=
  fun hmem =>
    c6_removed_deleted [("b", "device")] [devA6] devA6 (by decide) (by decide)
      ⟨devA6, hmem, rfl⟩

/-- Claim C7: `install_apk` succeeds exactly when the post-install
verification (`is_package_installed`, a case-insensitive substring match
over the package listing) finds the package; `last_installed_app` is set
to the package exactly on verified success and left unchanged otherwise;
and the tool's stderr never influences the success/error decision. -/
theorem c7_install_verified (pmOut pname : String) (stderr lastApp : Option String) :
    ((install_apk true (some pname) pmOut stderr lastApp).error = false ↔
      is_package_installed pmOut pname = true) ∧
    ((install_apk true (some pname) pmOut stderr lastApp).lastApp
      = if is_package_installed pmOut pname then some pname else lastApp) ∧
    (∀ s1 s2 : Option String,
      (install_apk true (some pname) pmOut s1 lastApp).error
        = (install_apk true (some pname) pmOut s2 lastApp).error) := by
  by_cases h : is_package_installed pmOut pname <;> simp [install_apk, h]

/-- Counterexample to claim C8 at an explicit timed-out invocation:
`_exec_adb` does report the timeout as an error, yet `uninstall_apk`
and `run_apk` still report success — the operations swallow the
timeout instead of surfacing it. -/
theorem c8_timeout_swallowed_counterexample :
    exec_adb (AdbOutcome.timedOut "Command timed out after 10 seconds")
      = ("", some "Command timed out after 10 seconds") ∧
    (uninstall_apk (AdbOutcome.timedOut "Command timed out after 10 seconds")
      (some "com.example.app") none).1 = true ∧
    run_apk (AdbOutcome.timedOut "Command timed out after 10 seconds")
      (some "com.example.app") "" = true :=
  ⟨rfl, rfl, rfl⟩

/-- Claim C8 (amended): the adb execution layer `_exec_adb` reports a
timeout as a specific failure — empty stdout plus the timeout message in
the error slot, instead of raising — but `uninstall_apk` and `run_apk`
discard the invocation outcome entirely and report success whatever it
was, so the timeout does not reach their callers. -/
theorem c8_timeout_amended (msg : String) (outc : AdbOutcome) (pkg : String)
    (la : Option String) (cc : String) :
    exec_adb (AdbOutcome.timedOut msg) = ("", some msg) ∧
    (uninstall_apk outc (some pkg) la).1 = true ∧
    run_apk outc (some pkg) cc = true :=
  ⟨rfl, rfl, rfl⟩

/-- Counterexample to claim C9 (proof of its negation): no retrievable
file content makes `pull_file` produce the decode-specific error — the
decode uses `errors="ignore"`, which is total, so the `decodeError`
branch of the source is unreachable. -/
theorem c9_no_decode_error_counterexample :
    ¬ ∃ (content : List Nat) (msg : String),
      pull_file (some content) = PullOutcome.decodeError msg := by
  rintro ⟨c, m, h⟩
  simp [pull_file] at h

/-- Claim C9 (amended): a decode failure cannot occur; for every
retrievable file content, `pull_file` returns the `errors="ignore"`
decoding of the reassembled bytes, and its only error outcome is the
RPC transport error for a missing file. -/
theorem c9_decode_total_amended (content : List Nat) :
    pull_file (some content) = PullOutcome.ok (decodeUtf8Ignore content) := by
  rw [pull_file, pullReassemble_eq]

/-- Claim C10: requesting zero devices with an empty wish list always
returns the error `"No free devices"` and leaves the scanned registry
untouched — no device is marked `in_use` — even when free devices
exist, because the scan breaks at the first free device once the
collected count (zero) equals the requested count. -/
theorem c10_zero_request (enumr : List (String × String)) (registry : List Device) :
    getFreeDevices 0 [] enumr registry
      = (scanReg enumr registry, { result := [], error := "No free devices" }) := by
  rw [getFreeDevices, gfdScan_zero_req]
  simp

end Teststation
